import Mathlib

/-!
Verification development for the MuJoCo abstract-visualization subsystem
(`engine_vis_visualize.c`).  The file gives a shallow embedding of the data
model and the algorithms of that translation unit and proves theorems about
the claims of the specification.  Machine floating point (`mjtNum`, `float`)
is idealized as exact arithmetic: `ℝ` where square roots occur, `ℚ` for the
purely rational computations such as color resolution.
-/

namespace MjVis

open Classical

/-- The engine constant `mjMINVAL = 1E-15`, as an exact rational. -/
def mjMINVALq : ℚ := 1 / 10 ^ 15

/-- The engine constant `mjMINVAL = 1E-15`, as a real number. -/
noncomputable def mjMINVAL : ℝ := 1 / 10 ^ 15

/-! ## The bounded output buffer: the START / FINISH pattern

`mjv_addGeoms` appends every primitive through a pair of textual code
blocks: `START` checks `scn->ngeom >= scn->maxgeom`, and when the buffer is
full it calls `mj_warning(d, mjWARN_VGEOMFULL, scn->maxgeom)` and executes
`return`, leaving the enclosing assembly function; otherwise it prepares
`scn->geoms + scn->ngeom`, and `FINISH` advances `scn->ngeom`.  We model the
buffer as a list of emitted records together with the capacity and the
number of warnings issued. -/

/-- Scene output buffer threaded through the START / FINISH pattern:
`geoms` are the records emitted so far (its length is `scn->ngeom`),
`maxgeom` is the capacity, `nwarning` counts `mjWARN_VGEOMFULL` warnings. -/
structure VScene (α : Type) where
  maxgeom : Nat
  geoms : List α
  nwarning : Nat
deriving Repr, DecidableEq

variable {α : Type}

/-- `scn->ngeom`, the current primitive count. -/
def VScene.ngeom (s : VScene α) : Nat := s.geoms.length

/-- One guarded emission (`START` body `FINISH`): when the buffer is full,
record a warning and report `false` (the `return` taken inside `START`);
otherwise append the record and report `true`. -/
def emitGeom (s : VScene α) (g : α) : VScene α × Bool :=
  if s.maxgeom ≤ s.ngeom then ({ s with nwarning := s.nwarning + 1 }, false)
  else ({ s with geoms := s.geoms ++ [g] }, true)

/-- A sequence of `START … FINISH` emissions inside one pass of
`mjv_addGeoms`: the `return` on a full buffer abandons the rest of the
pass. -/
def addGeomsLoop : VScene α → List α → VScene α
  | s, [] => s
  | s, g :: gs =>
    let r := emitGeom s g
    if r.2 then addGeomsLoop r.1 gs else r.1

/-- The behaviour the specification text ascribes to a full buffer: record a
warning, skip that single emission, and continue with the remaining
emissions.  (Written from the words of the spec, for comparison with
`addGeomsLoop`, which is written from the source.) -/
def addGeomsLoopSkip : VScene α → List α → VScene α
  | s, [] => s
  | s, g :: gs => addGeomsLoopSkip (emitGeom s g).1 gs

/-! ## Geom types and the connector factory -/

/-- `mjtGeom`: the visual geom types of `mjvisualize.h` that
`engine_vis_visualize.c` uses. -/
inductive mjtGeom
  | plane | hfield | sphere | capsule | ellipsoid | cylinder | box | mesh
  | arrow | arrow1 | arrow2 | rangefinderGeom | line | skin | labelGeom | gnone
deriving DecidableEq, Repr

/-- The connector-compatible subset of geom types accepted by
`mjv_makeConnector` (its leading type check). -/
def isConnector : mjtGeom → Bool
  | .capsule | .cylinder | .arrow | .arrow1 | .arrow2 | .line => true
  | _ => false

/-- A 3-vector of reals (`mjtNum[3]`). -/
structure Vec3 where
  x : ℝ
  y : ℝ
  z : ℝ

namespace Vec3

instance : Zero Vec3 := ⟨⟨0, 0, 0⟩⟩
instance : Add Vec3 := ⟨fun a b => ⟨a.x + b.x, a.y + b.y, a.z + b.z⟩⟩
instance : Sub Vec3 := ⟨fun a b => ⟨a.x - b.x, a.y - b.y, a.z - b.z⟩⟩
instance : Neg Vec3 := ⟨fun a => ⟨-a.x, -a.y, -a.z⟩⟩
instance : SMul ℝ Vec3 := ⟨fun c a => ⟨c * a.x, c * a.y, c * a.z⟩⟩

end Vec3

/-- `mju_norm3`: Euclidean norm of a 3-vector.  (The helper lives in
`engine_util_blas.c`, outside the provided sources; modelled from the spec,
which uses the segment length `|d|`.) -/
noncomputable def norm3 (v : Vec3) : ℝ := Real.sqrt (v.x ^ 2 + v.y ^ 2 + v.z ^ 2)

/-- `mju_dot3`. -/
def dot3 (a b : Vec3) : ℝ := a.x * b.x + a.y * b.y + a.z * b.z

/-- `mju_cross`: the 3-vector cross product. -/
def cross3 (a b : Vec3) : Vec3 :=
  ⟨a.y * b.z - a.z * b.y, a.z * b.x - a.x * b.z, a.x * b.y - a.y * b.x⟩

/-- A 3 by 3 matrix in row-major order (`mjtNum[9]`). -/
structure Mat3 where
  a00 : ℝ
  a01 : ℝ
  a02 : ℝ
  a10 : ℝ
  a11 : ℝ
  a12 : ℝ
  a20 : ℝ
  a21 : ℝ
  a22 : ℝ

namespace Mat3

/-- The identity matrix (the static `IDENTITY[9]` of the source). -/
def id : Mat3 := ⟨1, 0, 0, 0, 1, 0, 0, 0, 1⟩

/-- Matrix-vector product (`mju_mulMatVec` for the 3 by 3 case,
`mju_rotVecMat` up to transposition conventions). -/
def mulVec (m : Mat3) (v : Vec3) : Vec3 :=
  ⟨m.a00 * v.x + m.a01 * v.y + m.a02 * v.z,
   m.a10 * v.x + m.a11 * v.y + m.a12 * v.z,
   m.a20 * v.x + m.a21 * v.y + m.a22 * v.z⟩

end Mat3

/-- Modelled from the spec: the composition `mju_quatZ2Vec` then
`mju_quat2Mat` used by `mjv_makeConnector` (both helpers live in
`engine_util_spatial.c`, outside the provided sources).  The spec describes
it as the minimal rotation mapping the local z axis of the primitive to the
direction of `d`, with zero rotation when `d` is zero-length.  It is
expressed directly as a rotation matrix by the Rodrigues formula
`R = I + K + K^2 / (1 + c)` for the axis `z x u`, where `u` is the unit
direction of `d` and `c = u.z`; for `u = -z`, where no unique minimal
rotation exists, a half turn about the x axis is used. -/
noncomputable def rotZ2Vec (d : Vec3) : Mat3 :=
  if d = 0 then Mat3.id
  else
    let u := (1 / norm3 d) • d
    if 1 + u.z = 0 then ⟨1, 0, 0, 0, -1, 0, 0, 0, -1⟩
    else
      ⟨1 - u.x ^ 2 / (1 + u.z), -(u.x * u.y) / (1 + u.z), u.x,
       -(u.x * u.y) / (1 + u.z), 1 - u.y ^ 2 / (1 + u.z), u.y,
       -u.x, -u.y, 1 - (u.x ^ 2 + u.y ^ 2) / (1 + u.z)⟩

/-- The fields of `mjvGeom` assigned by `mjv_makeConnector`. -/
structure ConnGeom where
  type : mjtGeom
  size0 : ℝ
  size1 : ℝ
  size2 : ℝ
  pos : Vec3
  mat : Mat3

/-- `mjv_makeConnector`: set (type, size, pos, mat) of a connector-type geom
between points `a` and `b`.  The fatal `mju_error_i` on a type outside the
connector-compatible set is modelled as `none`; it fires before any field is
assigned. -/
noncomputable def mjv_makeConnector (type : mjtGeom) (width : ℝ) (a b : Vec3) :
    Option ConnGeom :=
  if isConnector type = false then none
  else
    let dif := b - a
    let len := norm3 dif
    let centered := type = mjtGeom.capsule ∨ type = mjtGeom.cylinder
    some
      { type := type
        size0 := width
        size1 := width
        size2 := if centered then 0.5 * len else len
        pos := if centered then (0.5 : ℝ) • (a + b) else a
        mat := rotZ2Vec dif }

/-! ## Categories and material resolution -/

/-- `mjtCatBit`: the visual object category of an emitted geom. -/
inductive mjtCat
  | static | dynamic | decor
deriving DecidableEq, Repr

/-- The category bitmask `catmask` passed to `mjv_addGeoms`. -/
structure CatMask where
  static : Bool
  dynamic : Bool
  decor : Bool
deriving DecidableEq, Repr

/-- The test `category & catmask` of the source, on the unbundled mask. -/
def catMember (c : mjtCat) (mask : CatMask) : Bool :=
  match c with
  | .static => mask.static
  | .dynamic => mask.dynamic
  | .decor => mask.decor

/-- An RGBA color with exact rational components. -/
structure Rgba where
  r : ℚ
  g : ℚ
  b : ℚ
  a : ℚ
deriving DecidableEq, Repr

/-- The canonical unset color assigned by `mjv_initGeom`: mid-gray with
alpha 1, the sentinel against which `setMaterial` compares the explicit
color. -/
def defaultRgba : Rgba := ⟨1/2, 1/2, 1/2, 1⟩

/-- The per-material model columns read by `setMaterial`
(`mat_texrepeat`, `mat_rgba`, `mat_texuniform`, `mat_emission`,
`mat_specular`, `mat_shininess`, `mat_reflectance`, `mat_texid`). -/
structure Material where
  texrepeat0 : ℚ
  texrepeat1 : ℚ
  rgba : Rgba
  texuniform : Bool
  emission : ℚ
  specular : ℚ
  shininess : ℚ
  reflectance : ℚ
  texid : Int
deriving DecidableEq, Repr

/-- The material-related slice of `mjvGeom`. -/
structure MatGeom where
  category : mjtCat
  texrepeat0 : ℚ
  texrepeat1 : ℚ
  rgba : Rgba
  texuniform : Bool
  emission : ℚ
  specular : ℚ
  shininess : ℚ
  reflectance : ℚ
  texid : Int
  texcoord : Bool
deriving DecidableEq, Repr

/-- The defaults `mjv_initGeom` assigns to the material-related fields of a
fresh geom of the given category. -/
def initMatGeom (category : mjtCat) : MatGeom :=
  { category := category
    texrepeat0 := 1
    texrepeat1 := 1
    rgba := defaultRgba
    texuniform := false
    emission := 0
    specular := 1/2
    shininess := 1/2
    reflectance := 0
    texid := -1
    texcoord := false }

/-- `setMaterial`: when a material is given (`matid >= 0`) copy its fields
onto the geom, otherwise clear the texture repeat; override the color by
the explicit `rgba` when it differs in any component from the default or
when no material is given; apply the texture id only when textures are
enabled and a material is given; finally scale the alpha of dynamic geoms
by `m->vis.map.alpha` when transparency is enabled. -/
def setMaterial (mats : Int → Material) (mapAlpha : ℚ)
    (flagTexture flagTransparent : Bool)
    (geom : MatGeom) (matid : Int) (rgba : Rgba) : MatGeom :=
  let g1 :=
    if 0 ≤ matid then
      { geom with
        texrepeat0 := (mats matid).texrepeat0
        texrepeat1 := (mats matid).texrepeat1
        rgba := (mats matid).rgba
        texuniform := (mats matid).texuniform
        emission := (mats matid).emission
        specular := (mats matid).specular
        shininess := (mats matid).shininess
        reflectance := (mats matid).reflectance }
    else { geom with texrepeat0 := 0, texrepeat1 := 0 }
  let g2 := if rgba ≠ defaultRgba ∨ matid < 0 then { g1 with rgba := rgba } else g1
  let g3 := if flagTexture ∧ 0 ≤ matid then { g2 with texid := (mats matid).texid } else g2
  if flagTransparent ∧ g3.category = mjtCat.dynamic then
    { g3 with rgba := { g3.rgba with a := g3.rgba.a * mapAlpha } }
  else g3

/-- `markselected`: add the glow emission and make the geom opaque. -/
def markselected (glow : ℚ) (g : MatGeom) : MatGeom :=
  { g with emission := g.emission + glow, rgba := { g.rgba with a := 1 } }

/-! ## Visibility groups and body classification -/

/-- `mjNGROUP`: the number of entries of each group visibility bitset. -/
def mjNGROUP : Int := 6

/-- The clamp `mjMAX(0, mjMIN(mjNGROUP-1, group))` applied to the group of
every joint, actuator, geom, site and tendon before indexing the matching
bitset of the Options. -/
def clampGroup (g : Int) : Int := max 0 (min (mjNGROUP - 1) g)

/-- The body tables deciding staticness: `body_weldid` and `body_mocapid`. -/
structure BodyTable where
  weldid : Nat → Nat
  mocapid : Nat → Int

/-- `bodycategory`: a body is static when it is welded to the world and is
not a mocap body; otherwise it is dynamic. -/
def bodycategory (bt : BodyTable) (bodyid : Nat) : mjtCat :=
  if bt.weldid bodyid = 0 ∧ bt.mocapid bodyid = -1 then .static else .dynamic

/-! ## The skin, geom and site emission loops of `mjv_addGeoms`

These embed the per-element emission decision of the three sections that
skip fully transparent elements: category masking, group visibility,
material resolution through `setMaterial`, the selection glow, the
alpha-zero `continue` (taken before `FINISH`, so the counter does not
move), and the bounds check of `START` (a full buffer warns and leaves the
assembly function).  Geometry fields that play no part in these decisions
(pose, size, mesh and plane data) are not carried. -/

/-- Emit a list of records in order, each through `START … FINISH`; on a
full buffer, warn and stop, reporting the abort as `false`. -/
def emitAll : VScene α → List α → VScene α × Bool
  | s, [] => (s, true)
  | s, g :: gs =>
    if s.maxgeom ≤ s.ngeom then ({ s with nwarning := s.nwarning + 1 }, false)
    else emitAll { s with geoms := s.geoms ++ [g] } gs

/-- Shared inputs of the emission loops: the material table, the global
transparency factor `m->vis.map.alpha`, the selection glow
`m->vis.global.glow`, and the texture / transparency option flags. -/
structure VisEnv where
  mats : Int → Material
  mapAlpha : ℚ
  glow : ℚ
  flagTexture : Bool
  flagTransparent : Bool

/-- The per-skin model columns driving emission: `skin_matid`, `skin_rgba`
and `skin_texcoordadr`. -/
structure SkinVis where
  matid : Int
  rgba : Rgba
  texcoordadr : Int

/-- The skin section loop of `mjv_addGeoms`, from skin index `i` on: resolve
the material, glow the skin when it is the current skin selection (this
makes it opaque), mark texture coordinates, and skip the skin without
advancing the counter when its resolved alpha is zero. -/
def skinLoop (env : VisEnv) (skinselect : Int) :
    Nat → List SkinVis → VScene MatGeom → VScene MatGeom
  | _, [], s => s
  | i, sk :: rest, s =>
    if s.maxgeom ≤ s.ngeom then { s with nwarning := s.nwarning + 1 }
    else
      let g1 := setMaterial env.mats env.mapAlpha env.flagTexture env.flagTransparent
        (initMatGeom .dynamic) sk.matid sk.rgba
      let g2 := if skinselect = (i : Int) then markselected env.glow g1 else g1
      let g3 := if 0 ≤ sk.texcoordadr then { g2 with texcoord := true } else g2
      if g3.rgba.a = 0 then skinLoop env skinselect (i + 1) rest s
      else skinLoop env skinselect (i + 1) rest { s with geoms := s.geoms ++ [g3] }

/-- The skin section with its gate: skins are drawn only when the skin flag
is set and the dynamic category is in the mask. -/
def skinSection (env : VisEnv) (flagSkin : Bool) (catmask : CatMask)
    (skinselect : Int) (skins : List SkinVis) (s : VScene MatGeom) : VScene MatGeom :=
  if flagSkin && catMember .dynamic catmask then skinLoop env skinselect 0 skins s else s

/-- The per-geom model columns driving emission: `geom_bodyid`,
`geom_group`, `geom_matid` and `geom_rgba`. -/
structure GeomVis where
  bodyid : Nat
  group : Int
  matid : Int
  rgba : Rgba

/-- The model geom section loop of `mjv_addGeoms`: mask by the category of
the owning body, test the clamped visibility group, resolve the material,
skip the geom without advancing the counter when its resolved alpha is zero
(this happens before the selection glow), then emit; when the frame mode is
the geom frame, three decorative frame-axis geoms follow (carried here as
default decor records, only their number matters to the counter). -/
def geomLoop (env : VisEnv) (bt : BodyTable) (catmask : CatMask)
    (geomgroup : Int → Bool) (frameGeom : Bool) (pertSelect : Int) :
    Nat → List GeomVis → VScene MatGeom → VScene MatGeom
  | _, [], s => s
  | i, gv :: rest, s =>
    let category := bodycategory bt gv.bodyid
    if catMember category catmask = false then
      geomLoop env bt catmask geomgroup frameGeom pertSelect (i + 1) rest s
    else if geomgroup (clampGroup gv.group) = false then
      geomLoop env bt catmask geomgroup frameGeom pertSelect (i + 1) rest s
    else if s.maxgeom ≤ s.ngeom then { s with nwarning := s.nwarning + 1 }
    else
      let g1 := setMaterial env.mats env.mapAlpha env.flagTexture env.flagTransparent
        (initMatGeom category) gv.matid gv.rgba
      if g1.rgba.a = 0 then
        geomLoop env bt catmask geomgroup frameGeom pertSelect (i + 1) rest s
      else
        let g2 := if 0 < pertSelect ∧ pertSelect = (gv.bodyid : Int) then
            markselected env.glow g1 else g1
        let s1 : VScene MatGeom := { s with geoms := s.geoms ++ [g2] }
        if frameGeom ∧ catMember .decor catmask = true then
          let r := emitAll s1 [initMatGeom .decor, initMatGeom .decor, initMatGeom .decor]
          if r.2 then geomLoop env bt catmask geomgroup frameGeom pertSelect (i + 1) rest r.1
          else r.1
        else geomLoop env bt catmask geomgroup frameGeom pertSelect (i + 1) rest s1

/-- The per-site model columns driving emission: `site_bodyid`,
`site_group`, `site_matid` and `site_rgba`. -/
structure SiteVis where
  bodyid : Nat
  group : Int
  matid : Int
  rgba : Rgba

/-- The site section loop of `mjv_addGeoms`: the same shape as the geom
section, over the site tables, with the site frame mode. -/
def siteLoop (env : VisEnv) (bt : BodyTable) (catmask : CatMask)
    (sitegroup : Int → Bool) (frameSite : Bool) (pertSelect : Int) :
    Nat → List SiteVis → VScene MatGeom → VScene MatGeom
  | _, [], s => s
  | i, sv :: rest, s =>
    let category := bodycategory bt sv.bodyid
    if catMember category catmask = false then
      siteLoop env bt catmask sitegroup frameSite pertSelect (i + 1) rest s
    else if sitegroup (clampGroup sv.group) = false then
      siteLoop env bt catmask sitegroup frameSite pertSelect (i + 1) rest s
    else if s.maxgeom ≤ s.ngeom then { s with nwarning := s.nwarning + 1 }
    else
      let g1 := setMaterial env.mats env.mapAlpha env.flagTexture env.flagTransparent
        (initMatGeom category) sv.matid sv.rgba
      if g1.rgba.a = 0 then
        siteLoop env bt catmask sitegroup frameSite pertSelect (i + 1) rest s
      else
        let g2 := if 0 < pertSelect ∧ pertSelect = (sv.bodyid : Int) then
            markselected env.glow g1 else g1
        let s1 : VScene MatGeom := { s with geoms := s.geoms ++ [g2] }
        if frameSite ∧ catMember .decor catmask = true then
          let r := emitAll s1 [initMatGeom .decor, initMatGeom .decor, initMatGeom .decor]
          if r.2 then siteLoop env bt catmask sitegroup frameSite pertSelect (i + 1) rest r.1
          else r.1
        else siteLoop env bt catmask sitegroup frameSite pertSelect (i + 1) rest s1

/-! ## The contact visualizer `addContactGeom` -/

/-- A contact as read by `addContactGeom`: its dimensionality `dim`, the
`efc_address` telling whether it was included in the constraint solve
(negative means excluded), the contact force in the contact frame (the
first three components of the `mj_contactForce` output), and the ids of
the two bodies owning the contacting geoms. -/
structure ContactRec where
  dim : Nat
  efc_address : Int
  confrc : Vec3
  body1 : Nat
  body2 : Nat

/-- The kind of geom `addContactGeom` emits: the contact-point marker
(recording which inclusion color it uses), a contact frame axis, or a force
arrow (`j = 0` combined, `j = 1` normal, `j = 2` friction). -/
inductive CGeomKind
  | point (included : Bool)
  | frameAxis (axis : Nat)
  | forceArrow (j : Nat)
deriving DecidableEq, Repr

/-- The record kept for every geom `addContactGeom` emits: its kind, its
geom type, and whether the force-magnitude text label was written on it. -/
structure CGeom where
  kind : CGeomKind
  gtype : mjtGeom
  labeled : Bool
deriving DecidableEq, Repr

/-- The visualization options read by `addContactGeom`. -/
structure ContactOpt where
  flagContactPoint : Bool
  flagContactForce : Bool
  flagContactSplit : Bool
  frameContact : Bool
  labelContactForce : Bool
deriving DecidableEq, Repr

/-- The force vector used for the arrows: zero-filled, then the first
`mjMIN(3, con->dim)` components copied from the `mj_contactForce` output. -/
def contactFrc (c : ContactRec) : Vec3 :=
  if 3 ≤ c.dim then c.confrc
  else if c.dim = 2 then ⟨c.confrc.x, c.confrc.y, 0⟩
  else if c.dim = 1 then ⟨c.confrc.x, 0, 0⟩
  else 0

/-- The force-arrow part of `addContactGeom` for one included contact:
skip the contact when the force is below `mjMINVAL`; otherwise emit either
the single combined arrow or, when the split flag is on and the contact has
more than one force dimension, the normal and friction arrows; the
magnitude label goes on the combined arrow, or on the normal arrow when
split, and only when the label mode selects contact forces. -/
noncomputable def contactArrows (opt : ContactOpt) (c : ContactRec)
    (s : VScene CGeom) : VScene CGeom × Bool :=
  let frc := contactFrc c
  if norm3 frc < mjMINVAL then (s, true)
  else
    let split := opt.flagContactSplit ∧ 1 < c.dim
    let gtype := if 0 < c.body1 ∧ 0 < c.body2 ∧ ¬split then mjtGeom.arrow2 else mjtGeom.arrow
    let js := if split then [1, 2] else [0]
    emitAll s (js.map fun j =>
      { kind := .forceArrow j
        gtype := gtype
        labeled := opt.labelContactForce ∧ j = (if split then 1 else 0) })

/-- The per-contact body of the `addContactGeom` loop: the contact-point
marker (colored by inclusion), the contact frame when the frame mode is the
contact frame, and for included contacts the force arrows.  The second
component is `false` when a full buffer aborted the whole function. -/
noncomputable def contactStep (opt : ContactOpt) (c : ContactRec)
    (s : VScene CGeom) : VScene CGeom × Bool :=
  let r1 :=
    if opt.flagContactPoint then
      emitGeom s { kind := .point (0 ≤ c.efc_address), gtype := .cylinder, labeled := false }
    else (s, true)
  if r1.2 = false then r1
  else
    let r2 :=
      if opt.frameContact then
        emitAll r1.1
          [{ kind := .frameAxis 0, gtype := .cylinder, labeled := false },
           { kind := .frameAxis 1, gtype := .cylinder, labeled := false },
           { kind := .frameAxis 2, gtype := .cylinder, labeled := false }]
      else (r1.1, true)
    if r2.2 = false then r2
    else if c.efc_address < 0 then (r2.1, true)
    else if opt.flagContactForce then contactArrows opt c r2.1
    else (r2.1, true)

/-- The contact loop: process the contacts in order, stopping when a full
buffer aborted the function. -/
noncomputable def contactLoop (opt : ContactOpt) :
    List ContactRec → VScene CGeom → VScene CGeom
  | [], s => s
  | c :: rest, s =>
    let r := contactStep opt c s
    if r.2 then contactLoop opt rest r.1 else r.1

/-- `addContactGeom`: fast return when contact points, contact forces and
the contact frame are all disabled; otherwise walk the contact list. -/
noncomputable def addContactGeom (opt : ContactOpt) (cons : List ContactRec)
    (s : VScene CGeom) : VScene CGeom :=
  if opt.flagContactPoint = false ∧ opt.flagContactForce = false ∧
      opt.frameContact = false then s
  else contactLoop opt cons s

/-! ## Actuator icon color interpolation -/

/-- The extended actuator value range `rng[0..2]` of the actuator section:
negative limit, neutral point, positive limit. -/
structure ActRange where
  lo : ℚ
  mid : ℚ
  hi : ℚ
deriving DecidableEq, Repr

/-- The extended symmetric-or-asymmetric range built from the raw limits:
an all-nonnegative range hangs below a synthetic -1, an all-nonpositive
range hangs above a synthetic +1, and a sign-spanning range keeps 0 as its
neutral point. -/
def extendRange (rmin rmax : ℚ) : ActRange :=
  if 0 ≤ rmin then ⟨-1, rmin, rmax⟩
  else if rmax ≤ 0 then ⟨rmin, rmax, 1⟩
  else ⟨rmin, 0, rmax⟩

/-- The small-range adjustment: push the negative limit down, then the
positive limit up, so that both gaps are at least `mjMINVAL`. -/
def adjustRange (r : ActRange) : ActRange :=
  let r1 := if r.mid - r.lo < mjMINVALq then { r with lo := r.mid - mjMINVALq } else r
  if r1.hi - r1.mid < mjMINVALq then { r1 with hi := r1.mid + mjMINVALq } else r1

/-- The clamp of the control or activation value into the extended range. -/
def clampAct (r : ActRange) (v : ℚ) : ℚ := min r.hi (max r.lo v)

/-- The interpolants `(amin, amean, amax)` of the actuator color: below the
neutral point interpolate between the negative-limit and neutral colors,
above it between the neutral and positive-limit colors, the divisors
guarded by `mjMINVAL`. -/
def actInterp (r : ActRange) (act : ℚ) : ℚ × ℚ × ℚ :=
  if act ≤ r.mid then
    let amin := (r.mid - act) / max mjMINVALq (r.mid - r.lo)
    (amin, 1 - amin, 0)
  else
    let amax := (act - r.mid) / max mjMINVALq (r.hi - r.mid)
    (0, 1 - amax, amax)

/-- The resolved actuator icon color: the interpolant-weighted combination
of the negative-limit, neutral and positive-limit reference colors
(`m->vis.rgba.actuatornegative`, `.actuator`, `.actuatorpositive`). -/
def actuatorColor (r : ActRange) (act : ℚ) (cneg cmid cpos : Rgba) : Rgba :=
  let v := actInterp r act
  ⟨v.1 * cneg.r + v.2.1 * cmid.r + v.2.2 * cpos.r,
   v.1 * cneg.g + v.2.1 * cmid.g + v.2.2 * cpos.g,
   v.1 * cneg.b + v.2.1 * cmid.b + v.2.2 * cpos.b,
   v.1 * cneg.a + v.2.1 * cmid.a + v.2.2 * cpos.a⟩

/-! ## The camera projector `mjv_updateCamera` -/

/-- `mjtCamera`: the camera modes. -/
inductive CamType
  | free | tracking | fixed | user
deriving DecidableEq, Repr

/-- The `mjvCamera` fields read by `mjv_updateCamera`. -/
structure Camera where
  type : CamType
  lookat : Vec3
  azimuth : ℝ
  elevation : ℝ
  distance : ℝ
  trackbodyid : Int
  fixedcamid : Int

/-- The model and data fields read by `mjv_updateCamera`. -/
structure CamModel where
  nbody : Nat
  ncam : Nat
  globalIpd : ℝ
  globalFovy : ℝ
  mapZnear : ℝ
  mapZfar : ℝ
  extent : ℝ
  subtreeCom : Nat → Vec3
  camXpos : Nat → Vec3
  camXmat : Nat → Mat3
  camIpd : Nat → ℝ
  camFovy : Nat → ℝ

/-- The head frame derived by `mjv_updateCamera` before it writes the two
GL cameras: head position, the forward / up / right basis, the
interpupillary distance and the field of view. -/
structure HeadFrame where
  headpos : Vec3
  forward : Vec3
  up : Vec3
  right : Vec3
  ipd : ℝ
  fovy : ℝ

/-- The head frame computation of `mjv_updateCamera`.  A free or tracking
camera builds the basis from azimuth and elevation (the tracking camera
first smooths its lookat point toward the tracked subtree center of mass by
the fixed factor 0.2) and places the head at `lookat - distance * forward`,
with the global interpupillary distance and field of view; a fixed camera
reads the basis from the columns of its world orientation matrix and uses
its own interpupillary distance and field of view.  `none` models the fatal
`mju_error` on an out-of-range tracked body or fixed camera id, and the
early return for a user camera, which writes nothing. -/
noncomputable def camFrame (m : CamModel) (cam : Camera) : Option HeadFrame :=
  match cam.type with
  | .user => none
  | .fixed =>
    if cam.fixedcamid < 0 ∨ (m.ncam : Int) ≤ cam.fixedcamid then none
    else
      let cid := cam.fixedcamid.toNat
      let mat := m.camXmat cid
      some
        { headpos := m.camXpos cid
          forward := ⟨-mat.a02, -mat.a12, -mat.a22⟩
          up := ⟨mat.a01, mat.a11, mat.a21⟩
          right := ⟨mat.a00, mat.a10, mat.a20⟩
          ipd := m.camIpd cid
          fovy := m.camFovy cid }
  | .free | .tracking =>
    if cam.type = .tracking ∧ (cam.trackbodyid < 0 ∨ (m.nbody : Int) ≤ cam.trackbodyid) then
      none
    else
      let lookat :=
        if cam.type = .tracking then
          cam.lookat + (0.2 : ℝ) • (m.subtreeCom cam.trackbodyid.toNat - cam.lookat)
        else cam.lookat
      let ca := Real.cos (cam.azimuth / 180 * Real.pi)
      let sa := Real.sin (cam.azimuth / 180 * Real.pi)
      let ce := Real.cos (cam.elevation / 180 * Real.pi)
      let se := Real.sin (cam.elevation / 180 * Real.pi)
      let forward : Vec3 := ⟨ce * ca, ce * sa, se⟩
      some
        { headpos := lookat + (-cam.distance) • forward
          forward := forward
          up := ⟨-se * ca, -se * sa, ce⟩
          right := ⟨sa, -ca, 0⟩
          ipd := m.globalIpd
          fovy := m.globalFovy }

/-- The per-view fields of `mjvGLCamera` written by `mjv_updateCamera`. -/
structure GLCamera where
  pos : Vec3
  forward : Vec3
  up : Vec3
  frustumCenter : ℝ
  frustumTop : ℝ
  frustumBottom : ℝ
  frustumNear : ℝ
  frustumFar : ℝ

/-- `mjv_updateCamera`: derive the head frame, then write the two stereo GL
cameras with eye positions offset along `right` by minus and plus half the
interpupillary distance and a shared symmetric frustum derived from the
scene extent, the view map and the field of view. -/
noncomputable def mjv_updateCamera (m : CamModel) (cam : Camera) :
    Option (GLCamera × GLCamera) :=
  (camFrame m cam).map fun f =>
    let znear := m.mapZnear * m.extent
    let zfar := m.mapZfar * m.extent
    let mk : Bool → GLCamera := fun view =>
      { pos := f.headpos + ((if view then f.ipd else -f.ipd) * (0.5 : ℝ)) • f.right
        forward := f.forward
        up := f.up
        frustumCenter := 0
        frustumTop := znear * Real.tan (f.fovy * (Real.pi / 360))
        frustumBottom := -(znear * Real.tan (f.fovy * (Real.pi / 360)))
        frustumNear := znear
        frustumFar := zfar }
    (mk false, mk true)

/-! ## The skin deformer `mjv_updateSkin` -/

/-- A quaternion in the (w, x, y, z) layout of the engine. -/
structure Quat where
  w : ℝ
  x : ℝ
  y : ℝ
  z : ℝ

/-- Modelled from the spec: `mju_negQuat` (engine_util_spatial.c, outside
the provided sources) — the conjugate, the inverse of a unit orientation
quaternion. -/
def negQuat (q : Quat) : Quat := ⟨q.w, -q.x, -q.y, -q.z⟩

/-- Modelled from the spec: `mju_mulQuat` — the Hamilton product, composing
two orientations. -/
def mulQuat (a b : Quat) : Quat :=
  ⟨a.w * b.w - a.x * b.x - a.y * b.y - a.z * b.z,
   a.w * b.x + a.x * b.w + a.y * b.z - a.z * b.y,
   a.w * b.y - a.x * b.z + a.y * b.w + a.z * b.x,
   a.w * b.z + a.x * b.y - a.y * b.x + a.z * b.w⟩

/-- Modelled from the spec: `mju_quat2Mat` — the standard rotation matrix
of a unit quaternion. -/
def quat2Mat (q : Quat) : Mat3 :=
  ⟨q.w ^ 2 + q.x ^ 2 - q.y ^ 2 - q.z ^ 2, 2 * (q.x * q.y - q.w * q.z),
     2 * (q.x * q.z + q.w * q.y),
   2 * (q.x * q.y + q.w * q.z), q.w ^ 2 - q.x ^ 2 + q.y ^ 2 - q.z ^ 2,
     2 * (q.y * q.z - q.w * q.x),
   2 * (q.x * q.z - q.w * q.y), 2 * (q.y * q.z + q.w * q.x),
     q.w ^ 2 - q.x ^ 2 - q.y ^ 2 + q.z ^ 2⟩

/-- One skin bone: the driving body, the bind pose (`skin_bonebindpos`,
`skin_bonebindquat`), and the weighted vertex list (`skin_bonevertid`,
`skin_bonevertweight`). -/
structure Bone where
  bodyid : Nat
  bindpos : Vec3
  bindquat : Quat
  verts : List (Nat × ℝ)

/-- One skin: authored rest vertex positions (`skin_vert`), bones, triangle
faces (`skin_face`) and the inflation parameter (`skin_inflate`). -/
structure Skin where
  vert : Nat → Vec3
  bones : List Bone
  faces : List (Nat × Nat × Nat)
  inflate : ℝ

/-- The body poses read by `mjv_updateSkin`: `d->xpos` and `d->xquat`. -/
structure BodyPose where
  xpos : Nat → Vec3
  xquat : Nat → Quat

/-- The rigid transform of one bone: the rotation is the current body
orientation composed with the inverse of the bind-pose orientation, the
translation is the current body position minus the bind position rotated by
that rotation. -/
def boneTransform (pose : BodyPose) (bn : Bone) : Mat3 × Vec3 :=
  let rot := quat2Mat (mulQuat (pose.xquat bn.bodyid) (negQuat bn.bindquat))
  (rot, pose.xpos bn.bodyid - rot.mulVec bn.bindpos)

/-- Accumulate the weighted transformed position of every vertex of one
bone into the vertex buffer (the inner loop of `mjv_updateSkin`). -/
def boneAccum (vert : Nat → Vec3) (rot : Mat3) (trans : Vec3) :
    List (Nat × ℝ) → (Nat → Vec3) → (Nat → Vec3)
  | [], buf => buf
  | (vid, w) :: rest, buf =>
    boneAccum vert rot trans rest
      (Function.update buf vid (buf vid + w • (rot.mulVec (vert vid) + trans)))

/-- The linear-blend-skinned vertex positions of one skin: the cleared
buffer accumulated over all bones. -/
def skinPositions (pose : BodyPose) (sk : Skin) : Nat → Vec3 :=
  sk.bones.foldl
    (fun buf bn =>
      let rt := boneTransform pose bn
      boneAccum sk.vert rt.1 rt.2 bn.verts buf)
    (fun _ => 0)

/-- Accumulate the cross-product normal of every face onto the three
vertices of the face. -/
def faceNormAccum (pos : Nat → Vec3) :
    List (Nat × Nat × Nat) → (Nat → Vec3) → (Nat → Vec3)
  | [], buf => buf
  | (v0, v1, v2) :: rest, buf =>
    let nrm := cross3 (pos v1 - pos v0) (pos v2 - pos v0)
    let b1 := Function.update buf v0 (buf v0 + nrm)
    let b2 := Function.update b1 v1 (b1 v1 + nrm)
    let b3 := Function.update b2 v2 (b2 v2 + nrm)
    faceNormAccum pos rest b3

/-- Normalize a vertex normal, guarding the magnitude by `mjMINVAL`. -/
noncomputable def normalizeGuard (v : Vec3) : Vec3 :=
  (1 / max mjMINVAL (norm3 v)) • v

/-- `mjv_updateSkin` for one skin of the loop: clear the buffers, accumulate
linear-blend positions bone by bone, recompute the vertex normals from the
faces and normalize them with the minimum-value guard, then, when the skin
has a nonzero inflation parameter, offset every vertex along its normal. -/
noncomputable def mjv_updateSkin (pose : BodyPose) (sk : Skin) : Nat → Vec3 :=
  let pos := skinPositions pose sk
  let nrm := fun vid => normalizeGuard (faceNormAccum pos sk.faces (fun _ => 0) vid)
  if sk.inflate = 0 then pos
  else fun vid => pos vid + sk.inflate • nrm vid

/-! ## Derived quantities used to state the claims -/

/-- The Euclidean distance of two points. -/
noncomputable def dist3 (a b : Vec3) : ℝ := norm3 (a - b)

/-- The total weight a vertex receives from the entries of one bone. -/
def vertexWeight (vid : Nat) (entries : List (Nat × ℝ)) : ℝ :=
  (entries.map fun e => if e.1 = vid then e.2 else 0).sum

/-- Componentwise linear interpolation of two colors, the shape the claim
about actuator icon colors asserts between neighboring reference colors. -/
def mixRgba (t : ℚ) (c1 c2 : Rgba) : Rgba :=
  ⟨(1 - t) * c1.r + t * c2.r, (1 - t) * c1.g + t * c2.g,
   (1 - t) * c1.b + t * c2.b, (1 - t) * c1.a + t * c2.a⟩

/-! ## Concrete instances used by witnesses and counterexamples -/

/-- The connector geom produced for a capsule of width 2 from the origin to
(0, 0, 2). -/
noncomputable def connCapsuleExample : ConnGeom :=
  { type := .capsule, size0 := 2, size1 := 2, size2 := 1
    pos := ⟨0, 0, 1⟩, mat := Mat3.id }

/-- A plain material with the default color. -/
def materialExample : Material :=
  { texrepeat0 := 1, texrepeat1 := 1, rgba := defaultRgba, texuniform := false
    emission := 0, specular := 1/2, shininess := 1/2, reflectance := 0, texid := -1 }

/-- An emission loop environment with neutral settings. -/
def visEnvExample : VisEnv :=
  { mats := fun _ => materialExample, mapAlpha := 1, glow := 1/2
    flagTexture := false, flagTransparent := false }

/-- A fully transparent skin record with no material. -/
def skinVisTransparent : SkinVis :=
  { matid := -1, rgba := ⟨1, 1, 1, 0⟩, texcoordadr := -1 }

/-- A single-bone skin whose only vertex is fully weighted to the bone. -/
noncomputable def skinBindExample : Skin :=
  { vert := fun _ => ⟨1, 2, 3⟩
    bones := [{ bodyid := 0, bindpos := ⟨0, 0, 0⟩, bindquat := ⟨1, 0, 0, 0⟩,
                verts := [(0, 1)] }]
    faces := []
    inflate := 0 }

/-- The same skin with the vertex weighted only one half to the bone. -/
noncomputable def skinHalfWeightExample : Skin :=
  { vert := fun _ => ⟨1, 2, 3⟩
    bones := [{ bodyid := 0, bindpos := ⟨0, 0, 0⟩, bindquat := ⟨1, 0, 0, 0⟩,
                verts := [(0, 1/2)] }]
    faces := []
    inflate := 0 }

/-- Body poses equal to the bind poses of the two example skins. -/
noncomputable def poseBindExample : BodyPose :=
  { xpos := fun _ => ⟨0, 0, 0⟩, xquat := fun _ => ⟨1, 0, 0, 0⟩ }

/-- A camera model with one fixed camera and identity orientation. -/
noncomputable def camModelExample : CamModel :=
  { nbody := 2, ncam := 1
    globalIpd := 1/2, globalFovy := 45
    mapZnear := 1/100, mapZfar := 50, extent := 1
    subtreeCom := fun _ => ⟨0, 0, 0⟩
    camXpos := fun _ => ⟨0, 0, 0⟩
    camXmat := fun _ => Mat3.id
    camIpd := fun _ => 1/4
    camFovy := fun _ => 45 }

/-- A free camera looking down the x axis from distance 1. -/
noncomputable def freeCameraExample : Camera :=
  { type := .free, lookat := ⟨0, 0, 0⟩, azimuth := 0, elevation := 0
    distance := 1, trackbodyid := -1, fixedcamid := -1 }

/-- The head frame of the free example camera. -/
noncomputable def freeFrameExample : HeadFrame :=
  { headpos := ⟨-1, 0, 0⟩, forward := ⟨1, 0, 0⟩, up := ⟨0, 0, 1⟩
    right := ⟨0, -1, 0⟩, ipd := 1/2, fovy := 45 }

/-- A material whose base color is dark gray, the material of the material
resolution scenario of the spec. -/
def darkMaterial : Material :=
  { texrepeat0 := 1, texrepeat1 := 1, rgba := ⟨1/5, 1/5, 1/5, 1⟩, texuniform := false
    emission := 0, specular := 1/2, shininess := 1/2, reflectance := 0, texid := 3 }

/-! # Basic lemmas -/

theorem Vec3.ext_iff {a b : Vec3} : a = b ↔ a.x = b.x ∧ a.y = b.y ∧ a.z = b.z := by
  constructor
  · rintro rfl; exact ⟨rfl, rfl, rfl⟩
  · rintro ⟨h1, h2, h3⟩; cases a; cases b; simp_all

theorem rgba_eq_iff {a b : Rgba} : a = b ↔ a.r = b.r ∧ a.g = b.g ∧ a.b = b.b ∧ a.a = b.a := by
  constructor
  · rintro rfl; exact ⟨rfl, rfl, rfl, rfl⟩
  · rintro ⟨h1, h2, h3, h4⟩; cases a; cases b; simp_all

theorem mat3_eq_iff {A B : Mat3} :
    A = B ↔ A.a00 = B.a00 ∧ A.a01 = B.a01 ∧ A.a02 = B.a02
      ∧ A.a10 = B.a10 ∧ A.a11 = B.a11 ∧ A.a12 = B.a12
      ∧ A.a20 = B.a20 ∧ A.a21 = B.a21 ∧ A.a22 = B.a22 := by
  constructor
  · rintro rfl; exact ⟨rfl, rfl, rfl, rfl, rfl, rfl, rfl, rfl, rfl⟩
  · rintro ⟨h1, h2, h3, h4, h5, h6, h7, h8, h9⟩; cases A; cases B; simp_all

theorem connGeom_eq_iff {a b : ConnGeom} :
    a = b ↔ a.type = b.type ∧ a.size0 = b.size0 ∧ a.size1 = b.size1
      ∧ a.size2 = b.size2 ∧ a.pos = b.pos ∧ a.mat = b.mat := by
  constructor
  · rintro rfl; exact ⟨rfl, rfl, rfl, rfl, rfl, rfl⟩
  · rintro ⟨h1, h2, h3, h4, h5, h6⟩; cases a; cases b; simp_all

@[simp] theorem Vec3.zero_x : (0 : Vec3).x = 0 := rfl

@[simp] theorem Vec3.zero_y : (0 : Vec3).y = 0 := rfl

@[simp] theorem Vec3.zero_z : (0 : Vec3).z = 0 := rfl

@[simp] theorem Vec3.add_x (a b : Vec3) : (a + b).x = a.x + b.x := rfl

@[simp] theorem Vec3.add_y (a b : Vec3) : (a + b).y = a.y + b.y := rfl

@[simp] theorem Vec3.add_z (a b : Vec3) : (a + b).z = a.z + b.z := rfl

@[simp] theorem Vec3.sub_x (a b : Vec3) : (a - b).x = a.x - b.x := rfl

@[simp] theorem Vec3.sub_y (a b : Vec3) : (a - b).y = a.y - b.y := rfl

@[simp] theorem Vec3.sub_z (a b : Vec3) : (a - b).z = a.z - b.z := rfl

@[simp] theorem Vec3.smul_x (c : ℝ) (a : Vec3) : (c • a).x = c * a.x := rfl

@[simp] theorem Vec3.smul_y (c : ℝ) (a : Vec3) : (c • a).y = c * a.y := rfl

@[simp] theorem Vec3.smul_z (c : ℝ) (a : Vec3) : (c • a).z = c * a.z := rfl

@[simp] theorem Mat3.id_mulVec (v : Vec3) : Mat3.id.mulVec v = v := by
  cases v; simp [Mat3.id, Mat3.mulVec]

@[simp] theorem VScene.ngeom_mk (mg : Nat) (l : List α) (nw : Nat) :
    (VScene.mk mg l nw).ngeom = l.length := rfl

/-! # Claim C1: the Scene capacity invariant -/

theorem addGeomsLoop_cons_full (s : VScene α) (g : α) (gs : List α)
    (h : s.maxgeom ≤ s.ngeom) :
    addGeomsLoop s (g :: gs) = { s with nwarning := s.nwarning + 1 } := by
  simp [addGeomsLoop, emitGeom, h]

theorem addGeomsLoop_cons_ok (s : VScene α) (g : α) (gs : List α)
    (h : ¬ s.maxgeom ≤ s.ngeom) :
    addGeomsLoop s (g :: gs) = addGeomsLoop { s with geoms := s.geoms ++ [g] } gs := by
  simp [addGeomsLoop, emitGeom, h]

theorem addGeomsLoop_ngeom_le (l : List α) (s : VScene α) (h : s.ngeom ≤ s.maxgeom) :
    (addGeomsLoop s l).ngeom ≤ s.maxgeom := by
  induction l generalizing s with
  | nil => simpa [addGeomsLoop] using h
  | cons g gs ih =>
    by_cases hf : s.maxgeom ≤ s.ngeom
    · rw [addGeomsLoop_cons_full s g gs hf]; exact h
    · rw [addGeomsLoop_cons_ok s g gs hf]
      have h' : ({ s with geoms := s.geoms ++ [g] } : VScene α).ngeom
          ≤ ({ s with geoms := s.geoms ++ [g] } : VScene α).maxgeom := by
        simp [VScene.ngeom] at hf ⊢; omega
      simpa using ih { s with geoms := s.geoms ++ [g] } h'

theorem addGeomsLoop_overfull (l : List α) (s : VScene α) (h : s.ngeom ≤ s.maxgeom)
    (hl : s.maxgeom ≤ s.ngeom + l.length) : (addGeomsLoop s l).ngeom = s.maxgeom := by
  induction l generalizing s with
  | nil => simp only [addGeomsLoop]; simp at hl; omega
  | cons g gs ih =>
    by_cases hf : s.maxgeom ≤ s.ngeom
    · rw [addGeomsLoop_cons_full s g gs hf]
      show s.ngeom = s.maxgeom
      omega
    · rw [addGeomsLoop_cons_ok s g gs hf]
      have h1 : ({ s with geoms := s.geoms ++ [g] } : VScene α).ngeom = s.ngeom + 1 := by
        simp [VScene.ngeom]
      have := ih { s with geoms := s.geoms ++ [g] }
        (by simp [VScene.ngeom] at hf ⊢; omega)
        (by simp [VScene.ngeom] at hl ⊢; omega)
      simpa using this

theorem addGeomsLoop_abort (l : List α) (s : VScene α) (hf : s.maxgeom ≤ s.ngeom)
    (hl : l ≠ []) : addGeomsLoop s l = { s with nwarning := s.nwarning + 1 } := by
  cases l with
  | nil => exact absurd rfl hl
  | cons g gs => exact addGeomsLoop_cons_full s g gs hf

/-- Claim C1 (amended): throughout scene assembly the primitive count never
exceeds the Scene capacity: every attempted emission first checks for
space; when the buffer is full a single non-fatal warning is recorded and
the assembly pass returns at once — the remaining emissions of the pass
are abandoned, not individually skipped-and-continued; emitting more
primitives than the capacity in one pass leaves exactly `maxgeom`
primitives in the Scene. -/
theorem scene_capacity_invariant (l : List α) (s : VScene α) (h : s.ngeom ≤ s.maxgeom) :
    (addGeomsLoop s l).ngeom ≤ s.maxgeom
    ∧ (s.maxgeom ≤ s.ngeom + l.length → (addGeomsLoop s l).ngeom = s.maxgeom)
    ∧ (s.maxgeom ≤ s.ngeom → l ≠ [] →
        addGeomsLoop s l = { s with nwarning := s.nwarning + 1 }) :=
  ⟨addGeomsLoop_ngeom_le l s h, fun hl => addGeomsLoop_overfull l s h hl,
   fun hf hl => addGeomsLoop_abort l s hf hl⟩

/-- Witness for C1: capacity 2 with three emissions yields exactly 2
primitives; an emission against a full buffer of capacity 1 records one
warning and changes nothing else. -/
theorem scene_capacity_invariant_witness :
    (addGeomsLoop (VScene.mk 2 ([] : List Unit) 0) [(), (), ()]).ngeom = 2
    ∧ addGeomsLoop (VScene.mk 1 [()] 0) [()] = VScene.mk 1 [()] 1 := by
  refine ⟨(scene_capacity_invariant [(), (), ()] (VScene.mk 2 [] 0) (by decide)).2.1
    (by decide), ?_⟩
  exact (scene_capacity_invariant [()] (VScene.mk 1 [()] 0) (by decide)).2.2
    (by decide) (by decide)

/-- Counterexample for C1 as stated: the claim says a full buffer makes the
assembler skip the single emission, warn, and continue with the remaining
categories; with capacity 1 and three attempted emissions the skip-and-
continue reading would record two warnings, but the pass warns once and
returns. -/
theorem scene_capacity_continue_counterexample :
    addGeomsLoop (VScene.mk 1 ([] : List Unit) 0) [(), (), ()]
      ≠ addGeomsLoopSkip (VScene.mk 1 ([] : List Unit) 0) [(), (), ()] := by
  decide

/-! # Claim C8: the connector type contract -/

/-- Claim C8: `mjv_makeConnector` fails fatally (modelled `none`, before any
geom field is assigned) exactly on the types outside the
connector-compatible set {capsule, cylinder, arrow, arrow1, arrow2, line};
on every type inside the set no such error is raised. -/
theorem makeConnector_type_contract (type : mjtGeom) (w : ℝ) (a b : Vec3) :
    mjv_makeConnector type w a b = none ↔ isConnector type = false := by
  cases htype : isConnector type
  · simp [mjv_makeConnector, htype]
  · simp [mjv_makeConnector, htype]

/-! # Claim C9: visibility group clamping -/

/-- Claim C9: the clamp applied to every element group before indexing the
per-category visibility bitset stays inside the bitset: the result is
nonnegative and below `mjNGROUP`, a negative group selects entry 0, a group
at or above `mjNGROUP` selects entry `mjNGROUP - 1`, and an in-range group
selects itself. -/
theorem clampGroup_in_bitset (g : Int) :
    0 ≤ clampGroup g ∧ clampGroup g < mjNGROUP
    ∧ (g < 0 → clampGroup g = 0)
    ∧ (mjNGROUP ≤ g → clampGroup g = mjNGROUP - 1)
    ∧ (0 ≤ g → g < mjNGROUP → clampGroup g = g) := by
  simp only [clampGroup, mjNGROUP]
  omega

/-- Witness for C9: group -5 selects entry 0, group 9 selects entry 5. -/
theorem clampGroup_in_bitset_witness :
    clampGroup (-5) = 0 ∧ clampGroup 9 = mjNGROUP - 1 :=
  ⟨(clampGroup_in_bitset (-5)).2.2.1 (by decide),
   (clampGroup_in_bitset 9).2.2.2.1 (by decide)⟩

/-! # Claim C6: material color resolution -/

/-- Claim C6: with the transparency scaling inactive, the color resolved by
`setMaterial` is the material base color exactly when a material is given
and the explicit color equals the canonical unset sentinel
(0.5, 0.5, 0.5, 1); whenever the explicit color differs in any component
from the sentinel, or no material is given, the explicit color wins. -/
theorem setMaterial_color_resolution (mats : Int → Material) (mapAlpha : ℚ)
    (flagTexture flagTransparent : Bool) (geom : MatGeom) (matid : Int) (rgba : Rgba)
    (hT : flagTransparent = false) :
    (setMaterial mats mapAlpha flagTexture flagTransparent geom matid rgba).rgba
      = if rgba = defaultRgba ∧ 0 ≤ matid then (mats matid).rgba else rgba := by
  subst hT
  simp only [setMaterial]
  by_cases h1 : 0 ≤ matid
  · by_cases h2 : rgba = defaultRgba
    · simp [h1, h2, not_lt.mpr h1, apply_ite MatGeom.rgba]
    · simp [h1, h2, apply_ite MatGeom.rgba]
  · simp [h1, Int.not_le.mp h1, apply_ite MatGeom.rgba]

/-- Witness for C6: the spec scenario — a material with dark base color and
the sentinel explicit color resolves to the material color, while an
explicit red overrides it. -/
theorem setMaterial_color_resolution_witness :
    (setMaterial (fun _ => darkMaterial) 1 false false (initMatGeom .static) 0
        defaultRgba).rgba = ⟨1/5, 1/5, 1/5, 1⟩
    ∧ (setMaterial (fun _ => darkMaterial) 1 false false (initMatGeom .static) 0
        ⟨1, 0, 0, 1⟩).rgba = ⟨1, 0, 0, 1⟩ := by
  constructor
  · rw [setMaterial_color_resolution (fun _ => darkMaterial) 1 false false
      (initMatGeom .static) 0 defaultRgba rfl]
    simp [darkMaterial]
  · rw [setMaterial_color_resolution (fun _ => darkMaterial) 1 false false
      (initMatGeom .static) 0 ⟨1, 0, 0, 1⟩ rfl]
    norm_num [defaultRgba, rgba_eq_iff]

/-! # Claim C4: actuator icon color interpolation -/

theorem mjMINVALq_pos : (0 : ℚ) < mjMINVALq := by norm_num [mjMINVALq]

theorem adjustRange_gaps (r : ActRange) :
    mjMINVALq ≤ (adjustRange r).mid - (adjustRange r).lo
    ∧ mjMINVALq ≤ (adjustRange r).hi - (adjustRange r).mid := by
  simp only [adjustRange]
  split_ifs with h1 h2 h2 <;> constructor <;> simp_all

/-- Claim C4: under the gap guarantees established by the small-range
adjustment, the actuator icon color is the neutral reference color at the
neutral value, the negative and positive limit reference colors at the
extended range limits, and interpolates linearly on each side. -/
theorem actuatorColor_piecewise (r : ActRange) (cneg cmid cpos : Rgba)
    (h1 : mjMINVALq ≤ r.mid - r.lo) (h2 : mjMINVALq ≤ r.hi - r.mid) :
    actuatorColor r r.mid cneg cmid cpos = cmid
    ∧ actuatorColor r r.lo cneg cmid cpos = cneg
    ∧ actuatorColor r r.hi cneg cmid cpos = cpos
    ∧ (∀ t : ℚ, 0 ≤ t → t ≤ 1 →
        actuatorColor r ((1 - t) * r.lo + t * r.mid) cneg cmid cpos = mixRgba t cneg cmid)
    ∧ (∀ t : ℚ, 0 ≤ t → t ≤ 1 →
        actuatorColor r ((1 - t) * r.mid + t * r.hi) cneg cmid cpos = mixRgba t cmid cpos) := by
  have hval := mjMINVALq_pos
  have hlo : r.lo < r.mid := by linarith
  have hhi : r.mid < r.hi := by linarith
  have hmlo : max mjMINVALq (r.mid - r.lo) = r.mid - r.lo := max_eq_right h1
  have hmhi : max mjMINVALq (r.hi - r.mid) = r.hi - r.mid := max_eq_right h2
  have hnlo : r.mid - r.lo ≠ 0 := by linarith
  have hnhi : r.hi - r.mid ≠ 0 := by linarith
  refine ⟨?_, ?_, ?_, ?_, ?_⟩
  · have e : actInterp r r.mid = (0, 1, 0) := by
      simp only [actInterp, if_pos (le_refl r.mid), sub_self, zero_div]
      refine Prod.ext rfl (Prod.ext ?_ rfl)
      norm_num
    simp only [actuatorColor, e]
    rw [rgba_eq_iff]; refine ⟨?_, ?_, ?_, ?_⟩ <;> dsimp only <;> ring
  · have e : actInterp r r.lo = (1, 0, 0) := by
      simp only [actInterp, if_pos (le_of_lt hlo), hmlo, div_self hnlo]
      refine Prod.ext rfl (Prod.ext ?_ rfl)
      norm_num
    simp only [actuatorColor, e]
    rw [rgba_eq_iff]; refine ⟨?_, ?_, ?_, ?_⟩ <;> dsimp only <;> ring
  · have e : actInterp r r.hi = (0, 0, 1) := by
      simp only [actInterp, if_neg (not_le.mpr hhi), hmhi, div_self hnhi]
      refine Prod.ext rfl (Prod.ext ?_ rfl)
      norm_num
    simp only [actuatorColor, e]
    rw [rgba_eq_iff]; refine ⟨?_, ?_, ?_, ?_⟩ <;> dsimp only <;> ring
  · intro t ht0 ht1
    have hact : (1 - t) * r.lo + t * r.mid ≤ r.mid := by nlinarith
    have e : actInterp r ((1 - t) * r.lo + t * r.mid) = (1 - t, t, 0) := by
      simp only [actInterp, if_pos hact, hmlo]
      rw [show r.mid - ((1 - t) * r.lo + t * r.mid) = (1 - t) * (r.mid - r.lo) by ring,
        mul_div_assoc, div_self hnlo, mul_one]
      refine Prod.ext rfl (Prod.ext ?_ rfl)
      ring
    simp only [actuatorColor, e]
    rw [rgba_eq_iff]; refine ⟨?_, ?_, ?_, ?_⟩ <;> dsimp only [mixRgba] <;> ring
  · intro t ht0 ht1
    by_cases ht : t = 0
    · subst ht
      rw [show (1 - (0:ℚ)) * r.mid + 0 * r.hi = r.mid by ring]
      have e : actInterp r r.mid = (0, 1, 0) := by
        simp only [actInterp, if_pos (le_refl r.mid), sub_self, zero_div]
        refine Prod.ext rfl (Prod.ext ?_ rfl)
        norm_num
      simp only [actuatorColor, e]
      rw [rgba_eq_iff]; refine ⟨?_, ?_, ?_, ?_⟩ <;> dsimp only [mixRgba] <;> ring
    · have htpos : 0 < t := lt_of_le_of_ne ht0 (Ne.symm ht)
      have hact : ¬ (1 - t) * r.mid + t * r.hi ≤ r.mid := by nlinarith
      have e : actInterp r ((1 - t) * r.mid + t * r.hi) = (0, 1 - t, t) := by
        simp only [actInterp, if_neg hact, hmhi]
        rw [show ((1 - t) * r.mid + t * r.hi) - r.mid = t * (r.hi - r.mid) by ring,
          mul_div_assoc, div_self hnhi, mul_one]
      simp only [actuatorColor, e]
      rw [rgba_eq_iff]; refine ⟨?_, ?_, ?_, ?_⟩ <;> dsimp only [mixRgba] <;> ring

/-- Witness for C4: the extended range built from limits (-2, 3) keeps its
gaps, the three anchors resolve to the three reference colors, and the
midpoint of the lower segment resolves to the even mix. -/
theorem actuatorColor_piecewise_witness :
    adjustRange (extendRange (-2) 3) = ⟨-2, 0, 3⟩
    ∧ mjMINVALq ≤ (0 : ℚ) - (-2) ∧ mjMINVALq ≤ (3 : ℚ) - 0
    ∧ actuatorColor ⟨-2, 0, 3⟩ 0 ⟨1, 0, 0, 1⟩ ⟨0, 1, 0, 1⟩ ⟨0, 0, 1, 1⟩ = ⟨0, 1, 0, 1⟩
    ∧ actuatorColor ⟨-2, 0, 3⟩ (-2) ⟨1, 0, 0, 1⟩ ⟨0, 1, 0, 1⟩ ⟨0, 0, 1, 1⟩ = ⟨1, 0, 0, 1⟩
    ∧ actuatorColor ⟨-2, 0, 3⟩ 3 ⟨1, 0, 0, 1⟩ ⟨0, 1, 0, 1⟩ ⟨0, 0, 1, 1⟩ = ⟨0, 0, 1, 1⟩
    ∧ actuatorColor ⟨-2, 0, 3⟩ ((1 - (1/2 : ℚ)) * (-2) + (1/2) * 0)
        ⟨1, 0, 0, 1⟩ ⟨0, 1, 0, 1⟩ ⟨0, 0, 1, 1⟩
        = mixRgba (1/2) ⟨1, 0, 0, 1⟩ ⟨0, 1, 0, 1⟩ := by
  have h := actuatorColor_piecewise ⟨-2, 0, 3⟩ ⟨1, 0, 0, 1⟩ ⟨0, 1, 0, 1⟩ ⟨0, 0, 1, 1⟩
    (by norm_num [mjMINVALq]) (by norm_num [mjMINVALq])
  refine ⟨?_, by norm_num [mjMINVALq], by norm_num [mjMINVALq], h.1, h.2.1, h.2.2.1,
    h.2.2.2.1 (1/2) (by norm_num) (by norm_num)⟩
  norm_num [adjustRange, extendRange, mjMINVALq]

/-! # Claim C2: connector geometry -/

theorem norm3_nonneg (v : Vec3) : 0 ≤ norm3 v := Real.sqrt_nonneg _

theorem norm3_sq (v : Vec3) : norm3 v ^ 2 = v.x ^ 2 + v.y ^ 2 + v.z ^ 2 :=
  Real.sq_sqrt (by positivity)

theorem norm3_pos (v : Vec3) (h : v ≠ 0) : 0 < norm3 v := by
  have hs : 0 < v.x ^ 2 + v.y ^ 2 + v.z ^ 2 := by
    rcases lt_or_eq_of_le (by positivity : (0:ℝ) ≤ v.x ^ 2 + v.y ^ 2 + v.z ^ 2) with hlt | heq
    · exact hlt
    · exfalso
      apply h
      have hx : v.x ^ 2 = 0 := by nlinarith [sq_nonneg v.x, sq_nonneg v.y, sq_nonneg v.z]
      have hy : v.y ^ 2 = 0 := by nlinarith [sq_nonneg v.x, sq_nonneg v.y, sq_nonneg v.z]
      have hz : v.z ^ 2 = 0 := by nlinarith [sq_nonneg v.x, sq_nonneg v.y, sq_nonneg v.z]
      rw [pow_eq_zero_iff (two_ne_zero)] at hx hy hz
      rw [Vec3.ext_iff]
      simp [hx, hy, hz]
  exact Real.sqrt_pos.mpr hs

theorem unitize_sq (d : Vec3) (hd : d ≠ 0) :
    ((1 / norm3 d) • d).x ^ 2 + ((1 / norm3 d) • d).y ^ 2 + ((1 / norm3 d) • d).z ^ 2 = 1 := by
  have hne : norm3 d ≠ 0 := ne_of_gt (norm3_pos d hd)
  have h2 := norm3_sq d
  simp only [Vec3.smul_x, Vec3.smul_y, Vec3.smul_z]
  field_simp
  linarith

theorem rotZ2Vec_zero : rotZ2Vec 0 = Mat3.id := by
  simp [rotZ2Vec]

/-- The modelled minimal rotation indeed takes the local z axis to the unit
direction of the segment. -/
theorem rotZ2Vec_maps_z (d : Vec3) (hd : d ≠ 0) :
    (rotZ2Vec d).mulVec ⟨0, 0, 1⟩ = (1 / norm3 d) • d := by
  obtain ⟨dx, dy, dz⟩ := d
  have hne : norm3 ⟨dx, dy, dz⟩ ≠ 0 := ne_of_gt (norm3_pos ⟨dx, dy, dz⟩ hd)
  have hunit := unitize_sq ⟨dx, dy, dz⟩ hd
  simp only [Vec3.smul_x, Vec3.smul_y, Vec3.smul_z] at hunit
  set n := norm3 ⟨dx, dy, dz⟩ with hnn
  simp only [rotZ2Vec, if_neg hd, Vec3.smul_x, Vec3.smul_y, Vec3.smul_z]
  by_cases hz : 1 + 1 / n * dz = 0
  · rw [if_pos hz]
    have h0 : (1/n*dx)^2 + (1/n*dy)^2 = 0 := by
      linear_combination hunit + (1 - 1/n*dz) * hz
    have hx2 : (1/n*dx)^2 = 0 := by nlinarith [sq_nonneg (1/n*dy)]
    have hy2 : (1/n*dy)^2 = 0 := by nlinarith [sq_nonneg (1/n*dx)]
    rw [pow_eq_zero_iff (two_ne_zero)] at hx2 hy2
    rw [Vec3.ext_iff]
    simp only [Mat3.mulVec, Vec3.smul_x, Vec3.smul_y, Vec3.smul_z]
    refine ⟨by linarith, by linarith, by linarith⟩
  · rw [if_neg hz]
    rw [Vec3.ext_iff]
    simp only [Mat3.mulVec, Vec3.smul_x, Vec3.smul_y, Vec3.smul_z]
    refine ⟨by ring, by ring, ?_⟩
    have h1 : (1/n*dx)^2 + (1/n*dy)^2 = (1 - 1/n*dz) * (1 + 1/n*dz) := by
      linear_combination hunit
    rw [h1, mul_div_assoc, div_self hz, mul_one]
    ring

/-- Claim C2: `mjv_makeConnector` sets the size to (w, w, L) — L the
segment length, halved for capsule and cylinder — positions capsule and
cylinder at the segment midpoint and the arrow and line types at the first
endpoint, and sets the orientation to the minimal rotation taking the
local z axis to the unit segment direction, the identity rotation when the
segment is zero-length. -/
theorem makeConnector_geometry (type : mjtGeom) (w : ℝ) (a b : Vec3) (g : ConnGeom)
    (h : mjv_makeConnector type w a b = some g) :
    g.type = type ∧ g.size0 = w ∧ g.size1 = w
    ∧ ((type = .capsule ∨ type = .cylinder) →
        g.size2 = 0.5 * norm3 (b - a) ∧ g.pos = (0.5 : ℝ) • (a + b))
    ∧ (¬(type = .capsule ∨ type = .cylinder) → g.size2 = norm3 (b - a) ∧ g.pos = a)
    ∧ (b - a ≠ 0 → g.mat.mulVec ⟨0, 0, 1⟩ = (1 / norm3 (b - a)) • (b - a))
    ∧ (b - a = 0 → g.mat = Mat3.id) := by
  by_cases hc : isConnector type = false
  · rw [mjv_makeConnector, if_pos hc] at h
    exact absurd h (by simp)
  · rw [mjv_makeConnector, if_neg hc] at h
    have hg := (Option.some.inj h).symm
    subst hg
    refine ⟨rfl, rfl, rfl, ?_, ?_, ?_, ?_⟩
    · intro hcen
      constructor
      · show (if type = mjtGeom.capsule ∨ type = mjtGeom.cylinder then _ else _) = _
        rw [if_pos hcen]
      · show (if type = mjtGeom.capsule ∨ type = mjtGeom.cylinder then _ else _) = _
        rw [if_pos hcen]
    · intro hcen
      constructor
      · show (if type = mjtGeom.capsule ∨ type = mjtGeom.cylinder then _ else _) = _
        rw [if_neg hcen]
      · show (if type = mjtGeom.capsule ∨ type = mjtGeom.cylinder then _ else _) = _
        rw [if_neg hcen]
    · intro hne
      exact rotZ2Vec_maps_z (b - a) hne
    · intro heq
      show rotZ2Vec (b - a) = Mat3.id
      rw [heq, rotZ2Vec_zero]

/-- Witness for C2: a capsule of width 2 from the origin to (0, 0, 2) has
half-length 1, sits at the midpoint (0, 0, 1), and its orientation maps the
local z axis onto the unit segment direction. -/
theorem makeConnector_geometry_witness :
    mjv_makeConnector .capsule 2 ⟨0, 0, 0⟩ ⟨0, 0, 2⟩ = some connCapsuleExample
    ∧ connCapsuleExample.size2 = 0.5 * norm3 ((⟨0, 0, 2⟩ : Vec3) - ⟨0, 0, 0⟩)
    ∧ connCapsuleExample.pos = (0.5 : ℝ) • ((⟨0, 0, 0⟩ : Vec3) + ⟨0, 0, 2⟩)
    ∧ connCapsuleExample.mat.mulVec ⟨0, 0, 1⟩
        = (1 / norm3 ((⟨0, 0, 2⟩ : Vec3) - ⟨0, 0, 0⟩)) • ((⟨0, 0, 2⟩ : Vec3) - ⟨0, 0, 0⟩) := by
  have hsub : ((⟨0, 0, 2⟩ : Vec3) - ⟨0, 0, 0⟩) = ⟨0, 0, 2⟩ := by
    rw [Vec3.ext_iff]; norm_num
  have hn2 : norm3 (⟨0, 0, 2⟩ : Vec3) = 2 := by
    rw [norm3]
    rw [show ((⟨0, 0, 2⟩ : Vec3)).x ^ 2 + ((⟨0, 0, 2⟩ : Vec3)).y ^ 2
        + ((⟨0, 0, 2⟩ : Vec3)).z ^ 2 = 2 ^ 2 by norm_num]
    exact Real.sqrt_sq (by norm_num)
  have hn : norm3 ((⟨0, 0, 2⟩ : Vec3) - ⟨0, 0, 0⟩) = 2 := by rw [hsub]; exact hn2
  have hne2 : (⟨0, 0, 2⟩ : Vec3) ≠ 0 := by
    intro hcontra
    rw [Vec3.ext_iff] at hcontra
    norm_num at hcontra
  have hdne : ((⟨0, 0, 2⟩ : Vec3) - ⟨0, 0, 0⟩) ≠ 0 := by rw [hsub]; exact hne2
  have hmat : rotZ2Vec ((⟨0, 0, 2⟩ : Vec3) - ⟨0, 0, 0⟩) = Mat3.id := by
    rw [hsub]
    simp only [rotZ2Vec, Vec3.smul_x, Vec3.smul_y, Vec3.smul_z, hn2]
    rw [if_neg hne2, if_neg (show ¬((1:ℝ) + 1 / 2 * 2 = 0) by norm_num)]
    rw [mat3_eq_iff]
    norm_num [Mat3.id]
  have h : mjv_makeConnector .capsule 2 ⟨0, 0, 0⟩ ⟨0, 0, 2⟩ = some connCapsuleExample := by
    rw [mjv_makeConnector, if_neg (by decide)]
    refine congrArg some ?_
    rw [connGeom_eq_iff]
    refine ⟨rfl, rfl, rfl, ?_, ?_, hmat⟩
    · show (if mjtGeom.capsule = mjtGeom.capsule ∨ mjtGeom.capsule = mjtGeom.cylinder
          then 0.5 * norm3 ((⟨0, 0, 2⟩ : Vec3) - ⟨0, 0, 0⟩)
          else norm3 ((⟨0, 0, 2⟩ : Vec3) - ⟨0, 0, 0⟩)) = connCapsuleExample.size2
      rw [if_pos (Or.inl rfl), hn, connCapsuleExample]
      norm_num
    · show (if mjtGeom.capsule = mjtGeom.capsule ∨ mjtGeom.capsule = mjtGeom.cylinder
          then (0.5 : ℝ) • ((⟨0, 0, 0⟩ : Vec3) + ⟨0, 0, 2⟩)
          else (⟨0, 0, 0⟩ : Vec3)) = connCapsuleExample.pos
      rw [if_pos (Or.inl rfl), connCapsuleExample, Vec3.ext_iff]
      norm_num
  have hg := makeConnector_geometry .capsule 2 ⟨0, 0, 0⟩ ⟨0, 0, 2⟩ connCapsuleExample h
  exact ⟨h, (hg.2.2.2.1 (Or.inl rfl)).1, (hg.2.2.2.1 (Or.inl rfl)).2,
    hg.2.2.2.2.2.1 hdne⟩

/-! # Claim C10: fully transparent elements are skipped -/

theorem texcoord_keeps_rgba (c : Prop) [Decidable c] (g : MatGeom) :
    (if c then { g with texcoord := true } else g).rgba = g.rgba := by
  split <;> rfl

/-- Claim C10 (amended): an element whose resolved color after material
resolution has alpha exactly zero is skipped before the primitive counter
advances — unconditionally for model geoms and sites, and for skins
whenever the skin is not the current skin selection.  (A selected skin is
forced opaque by the selection glow, which runs before the alpha test, and
is emitted; see the counterexample.) -/
theorem alphaZero_element_skipped
    (env : VisEnv) (skinselect : Int) (i : Nat) (sk : SkinVis)
    (skins : List SkinVis) (s : VScene MatGeom)
    (bt : BodyTable) (catmask : CatMask) (geomgroup sitegroup : Int → Bool)
    (frameGeom frameSite : Bool) (pertSelect : Int)
    (gv : GeomVis) (geoms : List GeomVis) (ig : Nat) (sg : VScene MatGeom)
    (sv : SiteVis) (sites : List SiteVis) (js : Nat) (ss : VScene MatGeom)
    (hsk : (setMaterial env.mats env.mapAlpha env.flagTexture env.flagTransparent
        (initMatGeom .dynamic) sk.matid sk.rgba).rgba.a = 0)
    (hsel : skinselect ≠ (i : Int))
    (hroom : s.ngeom < s.maxgeom)
    (hgv : (setMaterial env.mats env.mapAlpha env.flagTexture env.flagTransparent
        (initMatGeom (bodycategory bt gv.bodyid)) gv.matid gv.rgba).rgba.a = 0)
    (hroomg : sg.ngeom < sg.maxgeom)
    (hsv : (setMaterial env.mats env.mapAlpha env.flagTexture env.flagTransparent
        (initMatGeom (bodycategory bt sv.bodyid)) sv.matid sv.rgba).rgba.a = 0)
    (hrooms : ss.ngeom < ss.maxgeom) :
    skinLoop env skinselect i (sk :: skins) s = skinLoop env skinselect (i + 1) skins s
    ∧ geomLoop env bt catmask geomgroup frameGeom pertSelect ig (gv :: geoms) sg
        = geomLoop env bt catmask geomgroup frameGeom pertSelect (ig + 1) geoms sg
    ∧ siteLoop env bt catmask sitegroup frameSite pertSelect js (sv :: sites) ss
        = siteLoop env bt catmask sitegroup frameSite pertSelect (js + 1) sites ss := by
  refine ⟨?_, ?_, ?_⟩
  · simp only [skinLoop, if_neg (not_le.mpr hroom), if_neg hsel]
    rw [if_pos]
    rw [texcoord_keeps_rgba]
    exact hsk
  · simp only [geomLoop]
    by_cases hc : catMember (bodycategory bt gv.bodyid) catmask = false
    · rw [if_pos hc]
    · rw [if_neg hc]
      by_cases hg : geomgroup (clampGroup gv.group) = false
      · rw [if_pos hg]
      · rw [if_neg hg, if_neg (not_le.mpr hroomg), if_pos hgv]
  · simp only [siteLoop]
    by_cases hc : catMember (bodycategory bt sv.bodyid) catmask = false
    · rw [if_pos hc]
    · rw [if_neg hc]
      by_cases hg : sitegroup (clampGroup sv.group) = false
      · rw [if_pos hg]
      · rw [if_neg hg, if_neg (not_le.mpr hrooms), if_pos hsv]

/-- Witness for C10: a fully transparent unselected skin, a fully
transparent static geom and a fully transparent site each leave the scene
untouched. -/
theorem alphaZero_element_skipped_witness :
    skinLoop visEnvExample 1 0 [skinVisTransparent] (VScene.mk 4 [] 0)
      = skinLoop visEnvExample 1 1 [] (VScene.mk 4 [] 0)
    ∧ geomLoop visEnvExample ⟨fun _ => 0, fun _ => -1⟩ ⟨true, true, true⟩ (fun _ => true)
        false 0 0 [⟨0, 0, -1, ⟨1, 1, 1, 0⟩⟩] (VScene.mk 4 [] 0)
      = geomLoop visEnvExample ⟨fun _ => 0, fun _ => -1⟩ ⟨true, true, true⟩ (fun _ => true)
        false 0 1 [] (VScene.mk 4 [] 0)
    ∧ siteLoop visEnvExample ⟨fun _ => 0, fun _ => -1⟩ ⟨true, true, true⟩ (fun _ => true)
        false 0 0 [⟨0, 0, -1, ⟨1, 1, 1, 0⟩⟩] (VScene.mk 4 [] 0)
      = siteLoop visEnvExample ⟨fun _ => 0, fun _ => -1⟩ ⟨true, true, true⟩ (fun _ => true)
        false 0 1 [] (VScene.mk 4 [] 0) := by
  refine alphaZero_element_skipped visEnvExample 1 0 skinVisTransparent [] (VScene.mk 4 [] 0)
    ⟨fun _ => 0, fun _ => -1⟩ ⟨true, true, true⟩ (fun _ => true) (fun _ => true)
    false false 0 ⟨0, 0, -1, ⟨1, 1, 1, 0⟩⟩ [] 0 (VScene.mk 4 [] 0)
    ⟨0, 0, -1, ⟨1, 1, 1, 0⟩⟩ [] 0 (VScene.mk 4 [] 0)
    ?_ (by decide) (by decide) ?_ (by decide) ?_ (by decide)
  · norm_num [setMaterial, visEnvExample, skinVisTransparent, defaultRgba, rgba_eq_iff,
      initMatGeom]
  · norm_num [setMaterial, visEnvExample, bodycategory, defaultRgba, rgba_eq_iff,
      initMatGeom]
  · norm_num [setMaterial, visEnvExample, bodycategory, defaultRgba, rgba_eq_iff,
      initMatGeom]

/-- Counterexample for C10 as stated: a skin whose resolved color after
material resolution has alpha zero but which is the current skin selection
is emitted anyway — the selection glow makes it opaque after material
resolution and before the alpha test — so the primitive count advances. -/
theorem alphaZero_selected_skin_counterexample :
    (setMaterial visEnvExample.mats visEnvExample.mapAlpha visEnvExample.flagTexture
        visEnvExample.flagTransparent (initMatGeom .dynamic) skinVisTransparent.matid
        skinVisTransparent.rgba).rgba.a = 0
    ∧ (skinLoop visEnvExample 0 0 [skinVisTransparent] (VScene.mk 4 [] 0)).ngeom = 1 := by
  constructor
  · norm_num [setMaterial, visEnvExample, skinVisTransparent, defaultRgba, rgba_eq_iff,
      initMatGeom]
  · norm_num [skinLoop, VScene.ngeom, setMaterial, visEnvExample, skinVisTransparent,
      initMatGeom, defaultRgba, rgba_eq_iff, markselected]

/-! # Claim C5: the contact force split scenario -/

/-- Claim C5 (amended): for a single included contact with `dim = 3` and a
force of magnitude at least `mjMINVAL`, with the contact-point display, the
contact-force display and the split flag enabled, the contact frame mode
off, and the label mode set to contact forces, the visualizer emits exactly
three geoms: the contact-point marker, the normal force arrow carrying the
single magnitude label, and the friction force arrow. -/
theorem contactForceSplit_emissions (opt : ContactOpt) (c : ContactRec) (s : VScene CGeom)
    (hpoint : opt.flagContactPoint = true)
    (hforce : opt.flagContactForce = true)
    (hsplit : opt.flagContactSplit = true)
    (hframe : opt.frameContact = false)
    (hlabel : opt.labelContactForce = true)
    (hdim : c.dim = 3)
    (hefc : 0 ≤ c.efc_address)
    (hfrc : ¬ norm3 (contactFrc c) < mjMINVAL)
    (hcap : s.ngeom + 3 ≤ s.maxgeom) :
    addContactGeom opt [c] s
      = { s with geoms := s.geoms ++
          [{ kind := .point true, gtype := .cylinder, labeled := false },
           { kind := .forceArrow 1, gtype := .arrow, labeled := true },
           { kind := .forceArrow 2, gtype := .arrow, labeled := false }] } := by
  have hlen : s.geoms.length + 3 ≤ s.maxgeom := hcap
  have h1 : ¬ s.maxgeom ≤ s.geoms.length := by omega
  have h2 : ¬ s.maxgeom ≤ s.geoms.length + 1 := by omega
  have h3 : ¬ s.maxgeom ≤ s.geoms.length + 1 + 1 := by omega
  have h4 : ¬ c.efc_address < 0 := not_lt.mpr hefc
  have h5 : (1 : Nat) < c.dim := by omega
  rw [addContactGeom, if_neg (by simp [hpoint])]
  simp only [contactLoop, contactStep, contactArrows, emitGeom, emitAll, VScene.ngeom,
    List.length_append, List.length_cons, List.length_nil, List.map_cons, List.map_nil,
    hpoint, hframe, hforce, hsplit, hlabel, hefc, h1, h2, h3, h4, h5, hfrc]
  simp [List.append_assoc, h2, h3]

theorem contactFrc_example : contactFrc ⟨3, 0, ⟨3, 4, 0⟩, 1, 2⟩ = ⟨3, 4, 0⟩ := by
  rw [contactFrc]
  norm_num

theorem norm3_example_five : norm3 (⟨3, 4, 0⟩ : Vec3) = 5 := by
  rw [norm3]
  rw [show ((⟨3, 4, 0⟩ : Vec3)).x ^ 2 + ((⟨3, 4, 0⟩ : Vec3)).y ^ 2
      + ((⟨3, 4, 0⟩ : Vec3)).z ^ 2 = 5 ^ 2 by norm_num]
  exact Real.sqrt_sq (by norm_num)

/-- Witness for C5: a concrete included 3-dimensional contact with force
(3, 4, 0), all relevant options on, yields exactly the marker, the labeled
normal arrow and the friction arrow. -/
theorem contactForceSplit_emissions_witness :
    addContactGeom ⟨true, true, true, false, true⟩ [⟨3, 0, ⟨3, 4, 0⟩, 1, 2⟩]
        (VScene.mk 10 [] 0)
      = VScene.mk 10
          [{ kind := .point true, gtype := .cylinder, labeled := false },
           { kind := .forceArrow 1, gtype := .arrow, labeled := true },
           { kind := .forceArrow 2, gtype := .arrow, labeled := false }] 0 := by
  have hfrc : ¬ norm3 (contactFrc ⟨3, 0, ⟨3, 4, 0⟩, 1, 2⟩) < mjMINVAL := by
    rw [contactFrc_example, norm3_example_five]
    norm_num [mjMINVAL]
  exact contactForceSplit_emissions ⟨true, true, true, false, true⟩
    ⟨3, 0, ⟨3, 4, 0⟩, 1, 2⟩ (VScene.mk 10 [] 0)
    rfl rfl rfl rfl rfl rfl (by norm_num) hfrc (by norm_num [VScene.ngeom])

/-- Counterexample for C5 as stated: with only the contact-force display
and the split flag enabled — the premises of the claim — the same contact
yields no contact-point marker and no text label: the marker needs the
contact-point flag and the label needs the contact-force label mode,
neither of which the claim assumes. -/
theorem contactForceSplit_counterexample :
    ((addContactGeom ⟨false, true, true, false, false⟩ [⟨3, 0, ⟨3, 4, 0⟩, 1, 2⟩]
        (VScene.mk 10 [] 0)).geoms.countP
        (fun g => match g.kind with | CGeomKind.point _ => true | _ => false)) = 0
    ∧ ((addContactGeom ⟨false, true, true, false, false⟩ [⟨3, 0, ⟨3, 4, 0⟩, 1, 2⟩]
        (VScene.mk 10 [] 0)).geoms.countP (fun g => g.labeled)) = 0 := by
  have hfrc : ¬ norm3 (contactFrc ⟨3, 0, ⟨3, 4, 0⟩, 1, 2⟩) < mjMINVAL := by
    rw [contactFrc_example, norm3_example_five]
    norm_num [mjMINVAL]
  have hscene : addContactGeom ⟨false, true, true, false, false⟩ [⟨3, 0, ⟨3, 4, 0⟩, 1, 2⟩]
        (VScene.mk 10 [] 0)
      = VScene.mk 10
          [{ kind := .forceArrow 1, gtype := .arrow, labeled := false },
           { kind := .forceArrow 2, gtype := .arrow, labeled := false }] 0 := by
    rw [addContactGeom, if_neg (by simp)]
    simp only [contactLoop, contactStep, contactArrows, emitGeom, emitAll, VScene.ngeom,
      List.length_append, List.length_cons, List.length_nil, List.map_cons, List.map_nil,
      hfrc]
    norm_num
  rw [hscene]
  constructor <;> rfl

/-! # Claim C7: stereo camera symmetry -/

theorem norm3_smul (c : ℝ) (v : Vec3) : norm3 (c • v) = |c| * norm3 v := by
  rw [norm3, norm3]
  rw [show (c • v).x ^ 2 + (c • v).y ^ 2 + (c • v).z ^ 2
      = c ^ 2 * (v.x ^ 2 + v.y ^ 2 + v.z ^ 2) by
    simp only [Vec3.smul_x, Vec3.smul_y, Vec3.smul_z]; ring]
  rw [Real.sqrt_mul (sq_nonneg c), Real.sqrt_sq_eq_abs]

theorem vec_offset_sub (h v : Vec3) (t : ℝ) : (h + t • v) - h = t • v := by
  rw [Vec3.ext_iff]
  refine ⟨?_, ?_, ?_⟩ <;> simp

theorem vec_offset_sub2 (h v : Vec3) (t1 t2 : ℝ) :
    (h + t1 • v) - (h + t2 • v) = (t1 - t2) • v := by
  rw [Vec3.ext_iff]
  refine ⟨?_, ?_, ?_⟩ <;> simp <;> ring

theorem camFrame_right_ipd (m : CamModel) (cam : Camera) (f : HeadFrame)
    (hf : camFrame m cam = some f)
    (hfix : cam.type = CamType.fixed → norm3 f.right = 1) :
    norm3 f.right = 1
    ∧ ((cam.type = CamType.free ∨ cam.type = CamType.tracking) → f.ipd = m.globalIpd)
    ∧ (cam.type = CamType.fixed → f.ipd = m.camIpd cam.fixedcamid.toNat) := by
  cases htype : cam.type with
  | user =>
    simp only [camFrame, htype] at hf
    exact absurd hf (by simp)
  | fixed =>
    simp only [camFrame, htype] at hf
    by_cases hid : cam.fixedcamid < 0 ∨ (m.ncam : Int) ≤ cam.fixedcamid
    · rw [if_pos hid] at hf
      exact absurd hf (by simp)
    · rw [if_neg hid] at hf
      have hf' : f = _ := (Option.some.inj hf).symm
      subst hf'
      refine ⟨hfix htype, ?_, fun _ => rfl⟩
      intro hft
      rcases hft with hft | hft <;> exact absurd hft (by simp)
  | free =>
    simp only [camFrame, htype] at hf
    have hf' : f = _ := (Option.some.inj hf).symm
    subst hf'
    refine ⟨?_, fun _ => rfl, ?_⟩
    · rw [norm3]
      rw [show (Real.sin (cam.azimuth / 180 * Real.pi)) ^ 2
          + (-Real.cos (cam.azimuth / 180 * Real.pi)) ^ 2 + (0:ℝ) ^ 2
          = Real.sin (cam.azimuth / 180 * Real.pi) ^ 2
            + Real.cos (cam.azimuth / 180 * Real.pi) ^ 2 by ring]
      rw [Real.sin_sq_add_cos_sq, Real.sqrt_one]
    · intro hft
      exact absurd hft (by simp)
  | tracking =>
    simp only [camFrame, htype] at hf
    by_cases hid : cam.trackbodyid < 0 ∨ (m.nbody : Int) ≤ cam.trackbodyid
    · rw [if_pos (by simp [hid])] at hf
      exact absurd hf (by simp)
    · rw [if_neg (by simp [hid])] at hf
      have hf' : f = _ := (Option.some.inj hf).symm
      subst hf'
      refine ⟨?_, fun _ => rfl, ?_⟩
      · rw [norm3]
        rw [show (Real.sin (cam.azimuth / 180 * Real.pi)) ^ 2
            + (-Real.cos (cam.azimuth / 180 * Real.pi)) ^ 2 + (0:ℝ) ^ 2
            = Real.sin (cam.azimuth / 180 * Real.pi) ^ 2
              + Real.cos (cam.azimuth / 180 * Real.pi) ^ 2 by ring]
        rw [Real.sin_sq_add_cos_sq, Real.sqrt_one]
      · intro hft
        exact absurd hft (by simp)

/-- Claim C7: for a free, tracking or fixed camera (its head frame computed
by `camFrame`, with a nonnegative interpupillary distance and, for a fixed
camera, a unit-norm right column of its rotation), `mjv_updateCamera`
places the two eyes at the head position offset by minus and plus half the
interpupillary distance along the right axis, so both eyes are equidistant
from the head and their separation equals the configured interpupillary
distance — the global one for free and tracking cameras, the per-camera one
for fixed cameras. -/
theorem updateCamera_stereo (m : CamModel) (cam : Camera) (f : HeadFrame)
    (hf : camFrame m cam = some f)
    (hipd : 0 ≤ f.ipd)
    (hfix : cam.type = CamType.fixed → norm3 f.right = 1) :
    (∀ c0 c1, mjv_updateCamera m cam = some (c0, c1) →
        c0.pos = f.headpos + (-f.ipd * (0.5 : ℝ)) • f.right
        ∧ c1.pos = f.headpos + (f.ipd * (0.5 : ℝ)) • f.right
        ∧ dist3 c0.pos f.headpos = dist3 c1.pos f.headpos
        ∧ dist3 c1.pos c0.pos = f.ipd)
    ∧ (mjv_updateCamera m cam).isSome
    ∧ ((cam.type = CamType.free ∨ cam.type = CamType.tracking) → f.ipd = m.globalIpd)
    ∧ (cam.type = CamType.fixed → f.ipd = m.camIpd cam.fixedcamid.toNat) := by
  obtain ⟨hright, hfree, hfixipd⟩ := camFrame_right_ipd m cam f hf hfix
  refine ⟨?_, ?_, hfree, hfixipd⟩
  · intro c0 c1 h'
    rw [mjv_updateCamera, hf] at h'
    simp only [Option.map_some'] at h'
    have hX := Option.some.inj h'
    have h0' := congrArg Prod.fst hX
    have h1' := congrArg Prod.snd hX
    dsimp only at h0' h1'
    have h0p : c0.pos = f.headpos + (-f.ipd * (0.5:ℝ)) • f.right := by
      rw [← h0']
      simp
    have h1p : c1.pos = f.headpos + (f.ipd * (0.5:ℝ)) • f.right := by
      rw [← h1']
      simp
    refine ⟨h0p, h1p, ?_, ?_⟩
    · rw [h0p, h1p, dist3, dist3, vec_offset_sub, vec_offset_sub, norm3_smul, norm3_smul,
        show -f.ipd * (0.5:ℝ) = -(f.ipd * 0.5) by ring, abs_neg]
    · rw [h0p, h1p, dist3, vec_offset_sub2,
        show f.ipd * (0.5:ℝ) - -f.ipd * (0.5:ℝ) = f.ipd by ring,
        norm3_smul, hright, mul_one, abs_of_nonneg hipd]
  · rw [mjv_updateCamera, hf]
    simp

/-- Witness for C7: the example free camera (azimuth and elevation zero,
distance 1) has eyes separated by the configured global interpupillary
distance. -/
theorem updateCamera_stereo_witness :
    camFrame camModelExample freeCameraExample = some freeFrameExample
    ∧ (0:ℝ) ≤ freeFrameExample.ipd
    ∧ (mjv_updateCamera camModelExample freeCameraExample).isSome
    ∧ freeFrameExample.ipd = camModelExample.globalIpd := by
  have hf : camFrame camModelExample freeCameraExample = some freeFrameExample := by
    norm_num [camFrame, freeCameraExample, freeFrameExample, camModelExample,
      Vec3.ext_iff, Real.cos_zero, Real.sin_zero, HeadFrame.mk.injEq]
    refine ⟨by simp, ?_, ?_, ?_⟩ <;> rw [if_neg (by simp)]
  have h := updateCamera_stereo camModelExample freeCameraExample freeFrameExample hf
    (by norm_num [freeFrameExample]) (fun hco => absurd hco (by simp [freeCameraExample]))
  exact ⟨hf, by norm_num [freeFrameExample], h.2.1, h.2.2.1 (Or.inl rfl)⟩

/-! # Claim C3: skinning is the identity at bind pose -/

theorem Vec3.zero_smul' (v : Vec3) : (0:ℝ) • v = 0 := by
  rw [Vec3.ext_iff]; simp

theorem Vec3.add_zero' (v : Vec3) : v + 0 = v := by
  rw [Vec3.ext_iff]; simp

theorem Vec3.zero_add' (v : Vec3) : 0 + v = v := by
  rw [Vec3.ext_iff]; simp

theorem Vec3.sub_self' (v : Vec3) : v - v = 0 := by
  rw [Vec3.ext_iff]; simp

theorem mulQuat_negQuat_self (q : Quat)
    (h : q.w ^ 2 + q.x ^ 2 + q.y ^ 2 + q.z ^ 2 = 1) :
    mulQuat q (negQuat q) = ⟨1, 0, 0, 0⟩ := by
  obtain ⟨w, x, y, z⟩ := q
  simp only [mulQuat, negQuat, Quat.mk.injEq]
  refine ⟨by linear_combination h, by ring, by ring, by ring⟩

theorem quat2Mat_one : quat2Mat ⟨1, 0, 0, 0⟩ = Mat3.id := by
  rw [mat3_eq_iff]
  norm_num [quat2Mat, Mat3.id]

theorem boneTransform_bind (pose : BodyPose) (bn : Bone)
    (hq : pose.xquat bn.bodyid = bn.bindquat)
    (hp : pose.xpos bn.bodyid = bn.bindpos)
    (hu : bn.bindquat.w ^ 2 + bn.bindquat.x ^ 2 + bn.bindquat.y ^ 2
        + bn.bindquat.z ^ 2 = 1) :
    boneTransform pose bn = (Mat3.id, 0) := by
  simp only [boneTransform, hq, hp, mulQuat_negQuat_self bn.bindquat hu, quat2Mat_one,
    Mat3.id_mulVec]
  rw [Prod.mk.injEq]
  exact ⟨rfl, Vec3.sub_self' _⟩

theorem boneAccum_id_apply (vert : Nat → Vec3) (entries : List (Nat × ℝ))
    (buf : Nat → Vec3) (vid : Nat) :
    boneAccum vert Mat3.id 0 entries buf vid
      = buf vid + vertexWeight vid entries • vert vid := by
  induction entries generalizing buf with
  | nil =>
    simp only [boneAccum, vertexWeight, List.map_nil, List.sum_nil]
    rw [Vec3.zero_smul', Vec3.add_zero']
  | cons e rest ih =>
    obtain ⟨evid, w⟩ := e
    simp only [boneAccum, Mat3.id_mulVec]
    rw [ih, Function.update_apply]
    simp only [vertexWeight, List.map_cons, List.sum_cons]
    by_cases hv : vid = evid
    · subst hv
      rw [if_pos rfl, if_pos rfl]
      rw [Vec3.ext_iff]
      refine ⟨?_, ?_, ?_⟩ <;> simp <;> ring
    · rw [if_neg hv, if_neg (Ne.symm hv)]
      rw [Vec3.ext_iff]
      refine ⟨?_, ?_, ?_⟩ <;> simp

theorem skinPositions_bind_apply (pose : BodyPose) (sk : Skin)
    (hb : ∀ bn ∈ sk.bones, pose.xquat bn.bodyid = bn.bindquat
        ∧ pose.xpos bn.bodyid = bn.bindpos
        ∧ bn.bindquat.w ^ 2 + bn.bindquat.x ^ 2 + bn.bindquat.y ^ 2
            + bn.bindquat.z ^ 2 = 1)
    (vid : Nat) :
    skinPositions pose sk vid
      = ((sk.bones.map fun bn => vertexWeight vid bn.verts).sum) • sk.vert vid := by
  have main : ∀ (bones : List Bone) (buf : Nat → Vec3),
      (∀ bn ∈ bones, pose.xquat bn.bodyid = bn.bindquat
        ∧ pose.xpos bn.bodyid = bn.bindpos
        ∧ bn.bindquat.w ^ 2 + bn.bindquat.x ^ 2 + bn.bindquat.y ^ 2
            + bn.bindquat.z ^ 2 = 1) →
      (bones.foldl
        (fun buf bn =>
          let rt := boneTransform pose bn
          boneAccum sk.vert rt.1 rt.2 bn.verts buf) buf) vid
        = buf vid + ((bones.map fun bn => vertexWeight vid bn.verts).sum) • sk.vert vid := by
    intro bones
    induction bones with
    | nil =>
      intro buf _
      simp only [List.foldl_nil, List.map_nil, List.sum_nil]
      rw [Vec3.zero_smul', Vec3.add_zero']
    | cons bn rest ih =>
      intro buf hall
      have hbn := hall bn (List.mem_cons_self _ _)
      simp only [List.foldl_cons]
      rw [boneTransform_bind pose bn hbn.1 hbn.2.1 hbn.2.2]
      rw [ih _ (fun b hb' => hall b (List.mem_cons_of_mem _ hb'))]
      rw [boneAccum_id_apply]
      simp only [List.map_cons, List.sum_cons]
      rw [Vec3.ext_iff]
      refine ⟨?_, ?_, ?_⟩ <;> simp <;> ring
  have h := main sk.bones (fun _ => 0) hb
  rw [skinPositions, h]
  rw [Vec3.zero_add']

/-- Claim C3 (amended): if every bone of a skin has its current body pose
equal to its bind pose (a unit orientation quaternion), the weights of the
vertex over all bones sum to one, and the skin has zero inflation, then the
skinned vertex position computed by `mjv_updateSkin` equals the authored
rest position. -/
theorem updateSkin_bind_identity (pose : BodyPose) (sk : Skin) (vid : Nat)
    (hb : ∀ bn ∈ sk.bones, pose.xquat bn.bodyid = bn.bindquat
        ∧ pose.xpos bn.bodyid = bn.bindpos
        ∧ bn.bindquat.w ^ 2 + bn.bindquat.x ^ 2 + bn.bindquat.y ^ 2
            + bn.bindquat.z ^ 2 = 1)
    (hw : (sk.bones.map fun bn => vertexWeight vid bn.verts).sum = 1)
    (hinf : sk.inflate = 0) :
    mjv_updateSkin pose sk vid = sk.vert vid := by
  simp only [mjv_updateSkin, if_pos hinf]
  rw [skinPositions_bind_apply pose sk hb vid, hw]
  rw [Vec3.ext_iff]
  refine ⟨?_, ?_, ?_⟩ <;> simp

/-- Witness for C3: the single-bone skin with full weight at bind pose
reproduces its rest vertex exactly. -/
theorem updateSkin_bind_identity_witness :
    mjv_updateSkin poseBindExample skinBindExample 0 = skinBindExample.vert 0 := by
  apply updateSkin_bind_identity
  · intro bn hbn
    simp only [skinBindExample, List.mem_singleton] at hbn
    subst hbn
    exact ⟨rfl, rfl, by norm_num⟩
  · simp [skinBindExample, vertexWeight]
  · rfl

/-- Counterexample for C3 as stated: at bind pose with the vertex weighted
only one half to its bone, the skinned vertex is half the rest position —
weights are not required to sum to one, so identity deformation fails
without that extra hypothesis. -/
theorem updateSkin_half_weight_counterexample :
    mjv_updateSkin poseBindExample skinHalfWeightExample 0
      ≠ skinHalfWeightExample.vert 0 := by
  have hb : ∀ bn ∈ skinHalfWeightExample.bones,
      poseBindExample.xquat bn.bodyid = bn.bindquat
      ∧ poseBindExample.xpos bn.bodyid = bn.bindpos
      ∧ bn.bindquat.w ^ 2 + bn.bindquat.x ^ 2 + bn.bindquat.y ^ 2
          + bn.bindquat.z ^ 2 = 1 := by
    intro bn hbn
    simp only [skinHalfWeightExample, List.mem_singleton] at hbn
    subst hbn
    exact ⟨rfl, rfl, by norm_num⟩
  have hv : mjv_updateSkin poseBindExample skinHalfWeightExample 0
      = ((1:ℝ)/2) • skinHalfWeightExample.vert 0 := by
    simp only [mjv_updateSkin]
    rw [if_pos (show skinHalfWeightExample.inflate = 0 from rfl)]
    rw [skinPositions_bind_apply poseBindExample skinHalfWeightExample hb 0]
    rw [show ((skinHalfWeightExample.bones.map
        fun bn => vertexWeight 0 bn.verts).sum) = (1:ℝ)/2 from by
      simp [skinHalfWeightExample, vertexWeight]]
  rw [hv]
  intro hcontra
  rw [Vec3.ext_iff] at hcontra
  have hc := hcontra.1
  norm_num [skinHalfWeightExample] at hc

end MjVis
